import Mathlib

/-!
Shallow embedding of `cloud_common/cc/weather/weather_data.py` (class
`WeatherData`): the read path `get_computed_weather_data` and the write path
`save_computed` together with its private helper `__save_DS`.
-/

namespace WeatherData

/-- One decoded shard payload: a JSON object with an optional `"time"` key and
further metric fields, modelled as key/value pairs.  CPython dict equality
(used by `list.remove`) corresponds to structural equality of this
representation for the fixed field layouts appearing in this development. -/
structure Record where
  time : Option String
  fields : List (String × Int)
deriving DecidableEq

/-- The sort key `r.get('time')`.  It is only ever evaluated on records whose
`time` key is present: when some record lacks `time`, `get_computed_weather_data`
takes one of its error branches before any key is compared (CPython raises
there), so the `""` default never influences a result. -/
def tkey (r : Record) : String := r.time.getD ""

/-- Lexicographic comparison of character lists by code point: `charsLe x y`
is CPython's `x <= y` on strings viewed as their character sequences. -/
def charsLe : List Char → List Char → Bool
  | [], _ => true
  | _ :: _, [] => false
  | a :: as, b :: bs => if a < b then true else if b < a then false else charsLe as bs

/-- CPython `str` ≤: lexicographic by Unicode code point. -/
def strLe (a b : String) : Bool := charsLe a.data b.data

/-- Comparison used to model `sorted(rows, key=lambda r: r.get('time'),
reverse=True)`: `a` may precede `b` iff `a`'s key is ≥ `b`'s key. -/
def descBy (a b : Record) : Prop := strLe (tkey b) (tkey a) = true

instance : DecidableRel descBy :=
  fun a b => inferInstanceAs (Decidable (strLe (tkey b) (tkey a) = true))

theorem charsLe_total (x y : List Char) : charsLe x y = true ∨ charsLe y x = true := by
  induction x generalizing y with
  | nil => left; rfl
  | cons a as ih =>
    cases y with
    | nil => right; rfl
    | cons b bs =>
      by_cases hab : a < b
      · left; simp [charsLe, hab]
      · by_cases hba : b < a
        · right; simp [charsLe, hba]
        · rcases ih bs with h | h
          · left; simp [charsLe, hab, hba, h]
          · right; simp [charsLe, hab, hba, h]

theorem charsLe_cons_iff (a b : Char) (as bs : List Char) :
    charsLe (a :: as) (b :: bs) = true ↔ a < b ∨ (a = b ∧ charsLe as bs = true) := by
  by_cases hab : a < b
  · simp [charsLe, hab]
  · by_cases hba : b < a
    · have hne : ¬ a = b := fun h => absurd (h ▸ hba) (lt_irrefl b)
      simp [charsLe, hab, hba, hne]
    · have hEq : a = b := le_antisymm (not_lt.mp hba) (not_lt.mp hab)
      simp [charsLe, hab, hba, hEq]

theorem charsLe_trans (x y z : List Char) (hxy : charsLe x y = true)
    (hyz : charsLe y z = true) : charsLe x z = true := by
  induction x generalizing y z with
  | nil => rfl
  | cons a as ih =>
    cases y with
    | nil => simp [charsLe] at hxy
    | cons b bs =>
      cases z with
      | nil => simp [charsLe] at hyz
      | cons c cs =>
        rw [charsLe_cons_iff] at hxy hyz ⊢
        rcases hxy with hab | ⟨hab, hxy⟩
        · rcases hyz with hbc | ⟨hbc, _⟩
          · exact Or.inl (lt_trans hab hbc)
          · exact Or.inl (hbc ▸ hab)
        · rcases hyz with hbc | ⟨hbc, hyz⟩
          · exact Or.inl (hab ▸ hbc)
          · exact Or.inr ⟨hab.trans hbc, ih bs cs hxy hyz⟩

instance : IsTotal Record descBy := ⟨fun a b => charsLe_total (tkey b).data (tkey a).data⟩

instance : IsTrans Record descBy :=
  ⟨fun _ _ _ hab hbc => charsLe_trans _ _ _ hbc hab⟩

/-- `sorted(sorted_rows, key=lambda r: r.get('time'), reverse=True)`: a stable
descending sort by the `time` key.  CPython's sort is stable, and a stable sort
is determined extensionally by the key order, so insertion sort (which also
places each element before later equal-keyed ones) computes the same list. -/
def sortDesc (rows : List Record) : List Record := List.insertionSort descBy rows

/-- Uncaught CPython exceptions of the read path: `TypeError` from comparing
`None` with another key inside `sorted` (raised whenever the list has at least
two elements and some key is `None`, since every element takes part in at least
one comparison), and `KeyError` from `d['time']` in the dedup loop (reached
when the single fetched record lacks `time`, as a one-element sort performs no
comparison). -/
inductive Fault where
  | typeError
  | keyError
deriving DecidableEq

/-- The duplicate-removal loop of `get_computed_weather_data`:

```
previous_ts = None
for d in sorted_rows:
    if d['time'] == previous_ts:
        sorted_rows.remove(d)
        continue
    previous_ts = d['time']
```

modelled exactly as CPython executes it: the `for` iterator keeps an index `i`
into the (mutating) list, reads `lst[i]`, and then advances to `i+1` of the
list as modified by the body; `list.remove(d)` deletes the first element equal
to `d` (here `List.erase`, first structurally-equal element).  `fuel` only
bounds the recursion; since `i` grows by one per step and the length never
grows, `lst.length` steps always suffice (`removeDupsAux_fuel_drop` below
certifies that the fuel-exhausted branch is never what produces the result). -/
def removeDupsAux : Nat → List Record → Nat → Option String → List Record
  | 0, lst, _, _ => lst
  | fuel + 1, lst, i, prev =>
    if h : i < lst.length then
      if (lst.get ⟨i, h⟩).time = prev then
        removeDupsAux fuel (lst.erase (lst.get ⟨i, h⟩)) (i + 1) prev
      else
        removeDupsAux fuel lst (i + 1) (lst.get ⟨i, h⟩).time
    else lst

/-- `get_computed_weather_data(self, start_date, end_date, arable_device_name,
hourly=True)` after the store fetch and `json.loads` decoding: `rows` is the
list of decoded shard payloads returned by
`datastore.get_sharded_entity_range`.  The body sorts by the `time` key
descending and then removes duplicate timestamps in place; `hourly` appears in
the Python signature but is never read by the body.  A record without a `time`
key makes CPython raise (`TypeError` inside `sorted` when there are at least
two rows, `KeyError` at `d['time']` when there is exactly one), modelled by the
error branches. -/
def get_computed_weather_data (rows : List Record) (hourly : Bool) :
    Except Fault (List Record) :=
  if rows.all (fun r => r.time.isSome) then
    Except.ok (removeDupsAux (sortDesc rows).length (sortDesc rows) 0 none)
  else if 2 ≤ rows.length then Except.error Fault.typeError
  else Except.error Fault.keyError

/-- A Python exception value raised by one of the store clients (opaque to
this component; only its presence matters). -/
inductive Exn where
  | exn (msg : String)
deriving DecidableEq

/-- The store calls observable from `save_computed`: `Call.bq` is
`bigquery.save(...)`, `Call.ds` is `datastore.save_dict_to_entity(...)`. -/
inductive Call where
  | bq
  | ds
deriving DecidableEq

/-- Behaviour of the external store clients for the (at most) one call each
that `save_computed` makes: `bigquery.save` either returns a `Bool` or raises,
`datastore.save_dict_to_entity` either returns or raises. -/
structure Env where
  bq : Except Exn Bool
  ds : Except Exn Unit

/-- Body of the `try` block of `__save_DS(data_type, device_name, data)`,
paired with the trace of store calls it performs; an `Except.error` result
means a Python exception escapes the `try` body.  The validation compares each
argument against `None`, hence the `Option` types. -/
def save_DS_try (env : Env) (data_type device_name : Option String)
    (data : Option (List (String × Int))) : Except Exn Bool × List Call :=
  if data_type = none ∨ device_name = none ∨ data = none then (Except.ok false, [])
  else
    match env.ds with
    | Except.ok _ => (Except.ok true, [Call.ds])
    | Except.error e => (Except.error e, [Call.ds])

/-- `__save_DS`: the `try` body wrapped in its `except Exception` handler,
which logs the exception and returns `False`. -/
def save_DS (env : Env) (data_type device_name : Option String)
    (data : Option (List (String × Int))) : Bool × List Call :=
  match save_DS_try env data_type device_name data with
  | (Except.ok b, c) => (b, c)
  | (Except.error _, c) => (false, c)

/-- Body of the `try` block of `save_computed(timestamp, name, data)`, paired
with the trace of store calls: validate the arguments (`timestamp is None`,
`name is None`, `0 == len(data)` short-circuit to `False` with no store call),
then call `bigquery.save('computed', name, timestamp, data)` — an exception
there escapes the `try` body, a `False` result returns `False` — and on BQ
success call `__save_DS('computed', name, data)`, whose boolean result is the
final result.  `data` is a dict per the Python annotation, modelled as its
key/value pairs. -/
def save_computed_try (env : Env) (timestamp name : Option String)
    (data : List (String × Int)) : Except Exn Bool × List Call :=
  if timestamp = none ∨ name = none ∨ data.length = 0 then (Except.ok false, [])
  else
    match env.bq with
    | Except.error e => (Except.error e, [Call.bq])
    | Except.ok false => (Except.ok false, [Call.bq])
    | Except.ok true =>
      match save_DS env (some "computed") name (some data) with
      | (b, calls) => (Except.ok b, Call.bq :: calls)

/-- `save_computed`: the `try` body wrapped in its `except Exception` handler,
which logs the exception and returns `False`. -/
def save_computed (env : Env) (timestamp name : Option String)
    (data : List (String × Int)) : Bool × List Call :=
  match save_computed_try env timestamp name data with
  | (Except.ok b, c) => (b, c)
  | (Except.error _, c) => (false, c)

/-- Unfolding of one loop iteration while the index is in range. -/
theorem removeDupsAux_step (fuel : Nat) (lst : List Record) (i : Nat)
    (prev : Option String) (h : i < lst.length) :
    removeDupsAux (fuel + 1) lst i prev =
      if (lst.get ⟨i, h⟩).time = prev then
        removeDupsAux fuel (lst.erase (lst.get ⟨i, h⟩)) (i + 1) prev
      else
        removeDupsAux fuel lst (i + 1) (lst.get ⟨i, h⟩).time := by
  rw [removeDupsAux, dif_pos h]

/-- The loop stops as soon as the index reaches the end of the list. -/
theorem removeDupsAux_stop (fuel : Nat) (lst : List Record) (i : Nat)
    (prev : Option String) (h : ¬ i < lst.length) :
    removeDupsAux (fuel + 1) lst i prev = lst := by
  rw [removeDupsAux, dif_neg h]

/-- The duplicate-removal loop only ever deletes elements: its result is a
sublist of the list it starts from, whatever the fuel, index and previous
timestamp. -/
theorem removeDupsAux_sublist :
    ∀ (fuel : Nat) (lst : List Record) (i : Nat) (prev : Option String),
      (removeDupsAux fuel lst i prev).Sublist lst := by
  intro fuel
  induction fuel with
  | zero => intro lst i prev; exact List.Sublist.refl lst
  | succ fuel ih =>
    intro lst i prev
    by_cases h : i < lst.length
    · rw [removeDupsAux_step fuel lst i prev h]
      split
      · exact (ih _ _ _).trans (List.erase_sublist _ _)
      · exact ih _ _ _
    · rw [removeDupsAux_stop fuel lst i prev h]

/-- Fuel adequacy for `removeDupsAux`: once the fuel covers the distance from
the current index to the end of the list, more fuel does not change the
result.  In particular the fuel-exhausted base case is never what produces the
value of `removeDupsAux lst.length lst 0 prev`, so the fuelled recursion is a
faithful rendering of the (always terminating) CPython loop. -/
theorem removeDupsAux_fuel_drop :
    ∀ (fuel : Nat) (lst : List Record) (i : Nat) (prev : Option String),
      lst.length ≤ i + fuel →
      removeDupsAux (fuel + 1) lst i prev = removeDupsAux fuel lst i prev := by
  intro fuel
  induction fuel with
  | zero =>
    intro lst i prev hle
    rw [removeDupsAux_stop 0 lst i prev (by omega)]
    rfl
  | succ fuel ih =>
    intro lst i prev hle
    by_cases h : i < lst.length
    · rw [removeDupsAux_step (fuel + 1) lst i prev h, removeDupsAux_step fuel lst i prev h]
      split
      · refine ih _ _ _ ?_
        have herase := List.length_erase_of_mem (List.get_mem lst _ h)
        omega
      · exact ih _ _ _ (by omega)
    · rw [removeDupsAux_stop (fuel + 1) lst i prev h, removeDupsAux_stop fuel lst i prev h]

/-- A decoded shard payload with a `"time"` string and one metric field
`"t"`, as in the spec's scenarios. -/
def recT (t : String) (v : Int) : Record := Record.mk (some t) [("t", v)]

end WeatherData

namespace WeatherData

/-- C1: the claim says no two records in the output of
`get_computed_weather_data` share the same `time`.  The code violates it:
with three fetched records at one timestamp, removing the second record while
the `for` iterator is walking the list makes the iterator skip the third, so
two records with the same `time` survive into the output. -/
theorem C1_three_duplicates_leave_two :
    get_computed_weather_data
        [recT "2024-06-01T00:00" 1, recT "2024-06-01T00:00" 2, recT "2024-06-01T00:00" 3] true
      = Except.ok [recT "2024-06-01T00:00" 1, recT "2024-06-01T00:00" 3] ∧
    recT "2024-06-01T00:00" 1 ≠ recT "2024-06-01T00:00" 3 ∧
    (recT "2024-06-01T00:00" 1).time = (recT "2024-06-01T00:00" 3).time :=
  ⟨by rfl, by decide, rfl⟩

/-- C2: whenever `get_computed_weather_data` returns a result (for any shard
payload list and either value of `hourly`), the records are in descending
`time` order: any record appearing before another has a `time` that is ≥ the
later one's. -/
theorem C2_output_time_descending (rows out : List Record) (hourly : Bool)
    (h : get_computed_weather_data rows hourly = Except.ok out) :
    out.Pairwise fun a b => strLe (tkey b) (tkey a) = true := by
  unfold get_computed_weather_data at h
  split at h
  · injection h with h'
    rw [← h']
    exact (List.sorted_insertionSort descBy rows).sublist (removeDupsAux_sublist _ _ _ _)
  · split at h
    · exact Except.noConfusion h
    · exact Except.noConfusion h

/-- Witness for C2 at a concrete input: the store returns two records in
ascending order, and the returned series is descending. -/
theorem C2_output_time_descending_witness :
    ([recT "2024-01-02T00:06" 1, recT "2024-01-01T00:07" 2] : List Record).Pairwise
      (fun a b => strLe (tkey b) (tkey a) = true) :=
  C2_output_time_descending [recT "2024-01-01T00:07" 2, recT "2024-01-02T00:06" 1]
    [recT "2024-01-02T00:06" 1, recT "2024-01-01T00:07" 2] true (by rfl)

/-- C3: the claim says the only record kept at each timestamp is the first one
encountered in descending-sort order.  The code violates it: with three
records at one timestamp (kept in that order by the stable sort), the output
also contains the third record, which differs from the first but shares its
`time`. -/
theorem C3_kept_record_is_not_only_the_first :
    sortDesc [recT "2024-07-01T00:00" 7, recT "2024-07-01T00:00" 8, recT "2024-07-01T00:00" 9]
      = [recT "2024-07-01T00:00" 7, recT "2024-07-01T00:00" 8, recT "2024-07-01T00:00" 9] ∧
    get_computed_weather_data
        [recT "2024-07-01T00:00" 7, recT "2024-07-01T00:00" 8, recT "2024-07-01T00:00" 9] true
      = Except.ok [recT "2024-07-01T00:00" 7, recT "2024-07-01T00:00" 9] ∧
    recT "2024-07-01T00:00" 9 ≠ recT "2024-07-01T00:00" 7 ∧
    (recT "2024-07-01T00:00" 9).time = (recT "2024-07-01T00:00" 7).time :=
  ⟨by rfl, by rfl, by decide, rfl⟩

/-- C4: on the spec's scenario input the function returns exactly two records,
newest first: the first survivor at `2024-01-02T00:05` (the `t = 10` one, the
first in stable descending-sort order) followed by the
`2024-01-01T00:00` record. -/
theorem C4_scenario_two_survivors :
    get_computed_weather_data
        [recT "2024-01-02T00:05" 10, recT "2024-01-01T00:00" 5, recT "2024-01-02T00:05" 99] true
      = Except.ok [recT "2024-01-02T00:05" 10, recT "2024-01-01T00:00" 5] := by rfl

/-- C5: when the store returns no payloads, `get_computed_weather_data`
returns the empty list and no fault, for either value of `hourly`. -/
theorem C5_empty_fetch_empty_result :
    ∀ hourly : Bool, get_computed_weather_data [] hourly = Except.ok [] :=
  fun _ => rfl

/-- C6: if any fetched record lacks a `time` key, `get_computed_weather_data`
raises a fault that propagates uncaught (a `TypeError` inside `sorted` when
there are at least two rows, a `KeyError` at `d['time']` otherwise). -/
theorem C6_missing_time_always_faults (rows : List Record) (hourly : Bool)
    (h : ∃ r ∈ rows, r.time = none) :
    ∃ e, get_computed_weather_data rows hourly = Except.error e := by
  have hall : rows.all (fun r => r.time.isSome) = false := by
    rcases h with ⟨r, hr, ht⟩
    rw [List.all_eq_false]
    exact ⟨r, hr, by simp [ht]⟩
  unfold get_computed_weather_data
  rw [hall]
  simp only [Bool.false_eq_true, if_false]
  split
  · exact ⟨Fault.typeError, rfl⟩
  · exact ⟨Fault.keyError, rfl⟩

/-- Witness for C6 at a concrete input: a single record without a `time` key
makes the call fault. -/
theorem C6_missing_time_always_faults_witness :
    ∃ e, get_computed_weather_data [Record.mk none [("t", 4)]] true = Except.error e :=
  C6_missing_time_always_faults [Record.mk none [("t", 4)]] true
    ⟨Record.mk none [("t", 4)], by simp, rfl⟩

end WeatherData


namespace WeatherData

/-- Evaluation of `save_computed` under valid arguments: the validation
short-circuit does not fire, `bigquery.save` is called, and only on a `True`
result from it is `__save_DS` (hence the datastore client) reached. -/
theorem save_computed_valid_eq (env : Env) (timestamp name : Option String)
    (data : List (String × Int))
    (hval : ¬ (timestamp = none ∨ name = none ∨ data.length = 0)) :
    save_computed env timestamp name data =
      match env.bq with
      | Except.error _ => (false, [Call.bq])
      | Except.ok false => (false, [Call.bq])
      | Except.ok true =>
        match env.ds with
        | Except.ok _ => (true, [Call.bq, Call.ds])
        | Except.error _ => (false, [Call.bq, Call.ds]) := by
  have hcond : ¬ ((some "computed" : Option String) = none ∨ name = none ∨
      (some data : Option (List (String × Int))) = none) := by
    rintro (hc | hc | hc)
    · exact Option.noConfusion hc
    · exact hval (Or.inr (Or.inl hc))
    · exact Option.noConfusion hc
  unfold save_computed save_computed_try save_DS save_DS_try
  rw [if_neg hval, if_neg hcond]
  cases env.bq with
  | error e => rfl
  | ok b =>
    cases b with
    | false => rfl
    | true => cases env.ds with
      | ok u => rfl
      | error e => rfl

/-- C7: `save_computed` never propagates an exception raised by the analytics
store or the key/value store: whenever the `try` body ends in an exception the
call returns the boolean failure `False` (first conjunct, the
`except Exception` handler), and whenever either store client raises, the
call's result value is `False` (second conjunct, covering the `__save_DS`
internal handler as well). -/
theorem C7_store_exception_never_propagates (env : Env) (timestamp name : Option String)
    (data : List (String × Int)) :
    (∀ e calls, save_computed_try env timestamp name data = (Except.error e, calls) →
      save_computed env timestamp name data = (false, calls)) ∧
    (((∃ e, env.bq = Except.error e) ∨ (∃ e, env.ds = Except.error e)) →
      (save_computed env timestamp name data).fst = false) := by
  constructor
  · intro e calls h
    unfold save_computed
    rw [h]
  · intro hexn
    by_cases hval : timestamp = none ∨ name = none ∨ data.length = 0
    · unfold save_computed save_computed_try
      rw [if_pos hval]
    · rw [save_computed_valid_eq env timestamp name data hval]
      rcases hexn with ⟨e, he⟩ | ⟨e, he⟩
      · rw [he]
      · rw [he]
        cases env.bq with
        | error e2 => rfl
        | ok b => cases b <;> rfl

/-- Witness for C7 at a concrete input: with a raising BigQuery client the
call returns `False`. -/
theorem C7_store_exception_never_propagates_witness :
    (save_computed (Env.mk (Except.error (Exn.exn "boom")) (Except.ok ()))
        (some "2024-01-01T00:00") (some "d1") [("t", 1)]).fst = false :=
  (C7_store_exception_never_propagates
      (Env.mk (Except.error (Exn.exn "boom")) (Except.ok ()))
      (some "2024-01-01T00:00") (some "d1") [("t", 1)]).right
    (Or.inl ⟨Exn.exn "boom", rfl⟩)

/-- C8: `save_computed(timestamp=None, name="d1", data={"t": 1})` returns
`False` without attempting any store call (empty call trace), whatever the
store clients would have done. -/
theorem C8_none_timestamp_short_circuits (env : Env) :
    save_computed env none (some "d1") [("t", 1)] = (false, []) := rfl

/-- C9: the `hourly` parameter of `get_computed_weather_data` has no effect on
the result: for any fixed store response, `hourly=True` and `hourly=False`
give the same answer. -/
theorem C9_hourly_has_no_effect (rows : List Record) :
    get_computed_weather_data rows true = get_computed_weather_data rows false := rfl

/-- C10: with valid arguments, the datastore write is attempted only after the
BigQuery save succeeds: a `False` BigQuery result makes `save_computed` return
`False` with only the BigQuery call in the trace, and whenever the datastore
call appears in the trace, BigQuery returned success and preceded it. -/
theorem C10_ds_write_only_after_bq_success (env : Env) (timestamp name : Option String)
    (data : List (String × Int)) (hts : timestamp ≠ none) (hnm : name ≠ none)
    (hd : data ≠ []) :
    (env.bq = Except.ok false →
      save_computed env timestamp name data = (false, [Call.bq])) ∧
    (Call.ds ∈ (save_computed env timestamp name data).snd →
      env.bq = Except.ok true ∧
      (save_computed env timestamp name data).snd = [Call.bq, Call.ds]) := by
  have hvalid : ¬ (timestamp = none ∨ name = none ∨ data.length = 0) := by
    rintro (hc | hc | hc)
    · exact hts hc
    · exact hnm hc
    · exact hd (List.length_eq_zero.mp hc)
  constructor
  · intro hbq
    rw [save_computed_valid_eq env timestamp name data hvalid, hbq]
  · intro hds
    rw [save_computed_valid_eq env timestamp name data hvalid] at hds
    cases hbq : env.bq with
    | error e =>
      rw [hbq] at hds
      change Call.ds ∈ [Call.bq] at hds
      exact absurd hds (by decide)
    | ok b =>
      cases b with
      | false =>
        rw [hbq] at hds
        change Call.ds ∈ [Call.bq] at hds
        exact absurd hds (by decide)
      | true =>
        refine ⟨rfl, ?_⟩
        rw [save_computed_valid_eq env timestamp name data hvalid, hbq]
        cases env.ds with
        | ok u => rfl
        | error e => rfl

/-- Witness for C10 at a concrete input: a failed BigQuery save yields
`False` and a trace containing only the BigQuery call. -/
theorem C10_ds_write_only_after_bq_success_witness :
    save_computed (Env.mk (Except.ok false) (Except.ok ())) (some "2024-01-01T00:00")
        (some "d1") [("t", 1)] = (false, [Call.bq]) :=
  (C10_ds_write_only_after_bq_success (Env.mk (Except.ok false) (Except.ok ()))
      (some "2024-01-01T00:00") (some "d1") [("t", 1)]
      (fun hc => Option.noConfusion hc) (fun hc => Option.noConfusion hc)
      (fun hc => List.noConfusion hc)).left rfl

end WeatherData
